import Mathlib

/-!
Verification of the streamflow-model-validation pipeline.

The Python sources under `src/` are shallowly embedded here:

* `fetch_usgs_batch_v1` / `fetch_usgs_batch_v2` — the USGS gauge batch
  fetchers of `state_validation.py` (also `three_way_validation.py`, whose
  `fetch_usgs_data` is line-for-line the same logic) and
  `state_validation_v2.py`.
* `build_rows_v2` — the comparison-row construction of
  `state_validation_v2.py` step 5, together with `nwm_lookup_of`, its NWM
  ingestion (cms → cfs conversion).
* `fetch_nwm_data` — the two-phase NWM fetch of `three_way_validation.py`.
* `match_coords_to_comid_site` / `build_crosswalk_site` — the per-site
  nearest-reach resolution queries of `map_usgs_to_comid_local.py` and
  `build_crosswalk.py`.
* `compute_metrics`, `compute_metrics_threeway`, `calculate_metrics` — the
  three metric engines of `state_validation.py` (= `state_validation_v2.py`),
  `three_way_validation.py` and `validate.py`.

Numbers are idealized as rationals.  numpy float division by zero (which
yields `inf`/`-inf`/`nan`, not an exception) is modelled by the explicit
carrier `NpVal`; `np.isnan` guards in the source become `Option` in the
embedding.  `np.sqrt` and `np.log10` produce irrational reals; they are
modelled by `Rat.sqrt` and the integer-valued `log10` below, which agree
with the real functions on sign, zero-ness and monotone shape — every
theorem below depends only on which fields are produced and on exactly
rational values, never on the numerical value of a square root or
logarithm.
-/

/-- Python `dict` as an insertion-ordered association list. -/
abbrev PyDict (α β : Type) := List (α × β)

/-- Python `d[k] = v`: overwrite in place if the key is present, else append. -/
def dictSet {α β : Type} [BEq α] (m : PyDict α β) (k : α) (v : β) : PyDict α β :=
  if m.any (fun p => p.1 == k) then
    m.map (fun p => if p.1 == k then (k, v) else p)
  else m ++ [(k, v)]

/-- Python `d.get(k)`. -/
def dictGet {α β : Type} [BEq α] (m : PyDict α β) (k : α) : Option β :=
  (m.find? (fun p => p.1 == k)).map (fun p => p.2)

/-- One value inside a USGS time-series response:
`{"dateTime": ..., "value": ...}`. -/
structure SeriesValue where
  dateTime : String
  value : ℚ
deriving DecidableEq

/-- One `timeSeries` entry of a USGS response: the site code from
`sourceInfo.siteCode[0].value` and the list `values[0].value`. -/
structure TimeSeries where
  siteCode : String
  values : List SeriesValue
deriving DecidableEq

/-- Python slicing `s[:10]` (per code point, as Python slices strings). -/
def strTake10 (s : String) : String := String.mk (s.data.take 10)

/-- Per-series step of `fetch_usgs_batch` in `state_validation.py` (identical
to `fetch_usgs_data` in `three_way_validation.py`): take the first value,
keep it when the flow is non-negative.  No date check is performed. -/
def stepV1 (results : PyDict String ℚ) (s : TimeSeries) : PyDict String ℚ :=
  match s.values with
  | [] => results
  | v :: _ => if 0 ≤ v.value then dictSet results s.siteCode v.value else results

/-- `fetch_usgs_batch` of `state_validation.py` / `fetch_usgs_data` of
`three_way_validation.py`, as a pure function of the series returned by the
service.  The request batching (100 sites per HTTP call) only partitions
the response; the result dict is built by the same per-series loop. -/
def fetch_usgs_batch_v1 (seriesList : List TimeSeries) (date : String) :
    PyDict String ℚ :=
  seriesList.foldl stepV1 []

/-- Per-series step of `fetch_usgs_batch` in `state_validation_v2.py`:
the first value is kept only when `value_date == date`
(`values[0]["dateTime"][:10]`) and the flow is non-negative. -/
def stepV2 (date : String) (results : PyDict String ℚ) (s : TimeSeries) :
    PyDict String ℚ :=
  match s.values with
  | [] => results
  | v :: _ =>
      if strTake10 v.dateTime = date then
        if 0 ≤ v.value then dictSet results s.siteCode v.value else results
      else results

/-- `fetch_usgs_batch` of `state_validation_v2.py`. -/
def fetch_usgs_batch_v2 (seriesList : List TimeSeries) (date : String) :
    PyDict String ℚ :=
  seriesList.foldl (stepV2 date) []

/-- The entry `p` of the result dict originates from series `s` whose first
value carries the requested date and a non-negative flow. -/
def originV2 (date : String) (p : String × ℚ) (s : TimeSeries) : Prop :=
  s.siteCode = p.1 ∧
    ∃ v, s.values.head? = some v ∧ strTake10 v.dateTime = date ∧
      v.value = p.2 ∧ 0 ≤ v.value

/-- The entry `p` originates from series `s` whose first value carries a
non-negative flow (no date constraint — the v1 fetcher checks none). -/
def originV1 (p : String × ℚ) (s : TimeSeries) : Prop :=
  s.siteCode = p.1 ∧ ∃ v, s.values.head? = some v ∧ v.value = p.2 ∧ 0 ≤ v.value

/-- The `CMS_TO_CFS = 35.3147` conversion constant, as an exact rational. -/
def CMS_TO_CFS : ℚ := 353147 / 10000

/-- A site of the catalog built from `pour_points.geojson` in
`state_validation_v2.py` step 2 (`uuid`, `site_id`; the `state` label has
already been computed from the coordinates upstream). -/
structure SiteRec where
  uuid : String
  site_id : String
  st : String
deriving DecidableEq

/-- A comparison row of `state_validation_v2.py` step 5. -/
structure CompRow where
  uuid : String
  site_id : String
  comid : Option ℤ
  st : String
  date : String
  hpp_cfs : ℚ
  usgs_cfs : ℚ
  nwm_cfs : Option ℚ
deriving DecidableEq

/-- `nwm_flow = nwm_lookup.get(comid) if comid else None` — note the Python
truthiness: both a missing comid and a comid equal to `0` give `None`. -/
def nwmFlowFor (xwalk : PyDict String ℤ) (nwm : PyDict ℤ ℚ) (siteId : String) :
    Option ℚ :=
  (dictGet xwalk siteId).bind (fun c => if c ≠ 0 then dictGet nwm c else none)

/-- One loop iteration of `state_validation_v2.py` step 5: skip the site when
the HPP frame has no row for its uuid (`continue`), compute the USGS flow,
comid and NWM flow, and append a row only when the USGS flow is present. -/
def rowFor (hpp usgs : PyDict String ℚ) (xwalk : PyDict String ℤ)
    (nwm : PyDict ℤ ℚ) (date : String) (site : SiteRec) : Option CompRow :=
  (dictGet hpp site.uuid).bind (fun hppFlow =>
    (dictGet usgs site.site_id).map (fun usgsFlow =>
      { uuid := site.uuid, site_id := site.site_id,
        comid := dictGet xwalk site.site_id, st := site.st, date := date,
        hpp_cfs := hppFlow, usgs_cfs := usgsFlow,
        nwm_cfs := nwmFlowFor xwalk nwm site.site_id }))

/-- The comparison dataset of `state_validation_v2.py` step 5: one candidate
row per catalog site, kept when both the HPP and the USGS values exist. -/
def build_rows_v2 (sites : List SiteRec) (hpp usgs : PyDict String ℚ)
    (xwalk : PyDict String ℤ) (nwm : PyDict ℤ ℚ) (date : String) :
    List CompRow :=
  sites.filterMap (rowFor hpp usgs xwalk nwm date)

/-- NWM ingestion of `state_validation_v2.py` step 4:
`flow_cfs = streamflow_cms * CMS_TO_CFS` and
`nwm_lookup = dict(zip(comid, flow_cfs))`. -/
def nwm_lookup_of (nwmTable : List (ℤ × ℚ)) : PyDict ℤ ℚ :=
  nwmTable.foldl (fun m row => dictSet m row.1 (row.2 * CMS_TO_CFS)) []

/-- First query of `fetch_nwm_data` in `three_way_validation.py`:
`streamflow_cms * CMS_TO_CFS` for every requested comid whose
`streamflow_cms` is non-null in `nwm_velocity`. -/
def nwmPhase1 (nwmVelocity : List (ℤ × Option ℚ)) (comids : List ℤ) :
    PyDict ℤ ℚ :=
  (nwmVelocity.filter (fun r => decide (r.1 ∈ comids) && r.2.isSome)).foldl
    (fun m r =>
      match r.2 with
      | some cms => dictSet m r.1 (cms * CMS_TO_CFS)
      | none => m) []

/-- `fetch_nwm_data` of `three_way_validation.py`: first the `nwm_velocity`
table (`streamflow_cms * 35.3147` for requested comids with a non-null cms
value), then the `river_edges.flow_cfs` fallback — already in cfs, inserted
unconverted — for requested comids still missing. -/
def fetch_nwm_data (nwmVelocity riverEdges : List (ℤ × Option ℚ))
    (comids : List ℤ) : PyDict ℤ ℚ :=
  let phase1 := nwmPhase1 nwmVelocity comids
  let missing := comids.filter (fun c => !(phase1.any (fun p => p.1 == c)))
  (riverEdges.filter (fun r => decide (r.1 ∈ missing) && r.2.isSome)).foldl
    (fun m r =>
      match r.2 with
      | some f => if m.any (fun p => p.1 == r.1) then m else dictSet m r.1 f
      | none => m) phase1

/-- Python `round(q, d)`: round half to even at `d` decimal digits. -/
def pyRound (d : ℕ) (q : ℚ) : ℚ :=
  let s : ℚ := q * (10 : ℚ) ^ d
  let f : ℤ := s.floor
  let r : ℤ :=
    if s - f < 1 / 2 then f
    else if 1 / 2 < s - f then f + 1
    else if f % 2 = 0 then f else f + 1
  (r : ℚ) / (10 : ℚ) ^ d

/-- A candidate `river_edges` row for one queried site: its reach id, river
name and the PostGIS distance from the site to the reach geometry. -/
structure RiverEdge where
  comid : ℤ
  gnis_name : String
  dist : ℚ
deriving DecidableEq

/-- Scan for a minimum-distance candidate; the first-listed row wins ties,
modelling the first row of the SQL `ORDER BY distance` result (PostgreSQL
fixes no order among equal keys; neither query adds a tie-breaking key). -/
def minFold (t : List RiverEdge) (b : RiverEdge) : RiverEdge :=
  t.foldl (fun best x => if x.dist < best.dist then x else best) b

/-- `ORDER BY distance LIMIT 1` over a candidate list. -/
def argminByDist : List RiverEdge → Option RiverEdge
  | [] => none
  | e :: t => some (minFold t e)

/-- The per-site query of `match_coords_to_comid`
(`map_usgs_to_comid_local.py`): restrict to candidates with
`ST_DWithin(..., max_distance_m)`, order by distance, take the first comid. -/
def match_coords_to_comid_site (table : List RiverEdge) (maxDistM : ℚ) :
    Option ℤ :=
  (argminByDist (table.filter (fun e => decide (e.dist ≤ maxDistM)))).map
    (fun e => e.comid)

/-- A candidate row of the `build_crosswalk.py` query for one site.  That
query orders by the planar KNN key `geom <-> ST_Point(lon, lat)` — a
distance in DEGREES — while the `row[2]` it returns and thresholds is
`ST_Distance` over geography, in METERS.  The two measures can order
candidates differently, so both are carried. -/
structure CrosswalkEdge where
  comid : ℤ
  gnis_name : String
  knnDist : ℚ
  dist : ℚ
deriving DecidableEq

/-- Minimum-`knnDist` scan, first-listed row winning ties (the first row of
`ORDER BY geom <-> point`, as in `minFold`). -/
def minFoldKnn (t : List CrosswalkEdge) (b : CrosswalkEdge) : CrosswalkEdge :=
  t.foldl (fun best x => if x.knnDist < best.knnDist then x else best) b

/-- `ORDER BY geom <-> point LIMIT 1` over a candidate list. -/
def argminByKnn : List CrosswalkEdge → Option CrosswalkEdge
  | [] => none
  | e :: t => some (minFoldKnn t e)

/-- The per-site query of `build_crosswalk.py` over the candidate rows
surviving its bounding-box prefilter: take the candidate nearest in the
planar KNN key, keep it only when its geography METER distance satisfies
`row[2] < 500`.  The selected reach is nearest in the degree-space key,
not necessarily in meters. -/
def build_crosswalk_site (table : List CrosswalkEdge) : Option (ℤ × String × ℚ) :=
  (argminByKnn table).bind (fun e =>
    if e.dist < 500 then some (e.comid, e.gnis_name, pyRound 1 e.dist)
    else none)

/-- Concrete site used in the C8 counterexample. -/
def cexSite : SiteRec := ⟨"u1", "09000001", "TX"⟩

/-- `np.mean` (callers only apply it to nonempty arrays). -/
def qmean (l : List ℚ) : ℚ := l.sum / (l.length : ℚ)

/-- `np.sum((l - np.mean(l)) ** 2)` — the NSE denominator. -/
def ssTotOf (l : List ℚ) : ℚ := (l.map (fun x => (x - qmean l) ^ 2)).sum

/-- Population variance, `np.var` / the square of `np.std` (`ddof=0`). -/
def varPop (l : List ℚ) : ℚ := ssTotOf l / (l.length : ℚ)

/-- `np.std`.  `Rat.sqrt` is a rational stand-in for the real square root:
it is zero exactly on the nonpositives and positive on the positives, which
is all the source ever branches on; no theorem uses its numerical value. -/
def npStd (l : List ℚ) : ℚ := Rat.sqrt (varPop l)

/-- Population covariance of two aligned samples. -/
def covPop (obs pred : List ℚ) : ℚ :=
  ((obs.zip pred).map (fun pq => (pq.1 - qmean obs) * (pq.2 - qmean pred))).sum /
    (obs.length : ℚ)

/-- `np.log10` on a positive rational, as the integer floor logarithm — a
rational stand-in whose numerical value no theorem depends on (the source
applies it only to already-positivity-filtered data and never branches on
the result). -/
def log10 (q : ℚ) : ℚ := ((Int.log 10 q : ℤ) : ℚ)

/-- A numpy float-64 result: finite, `nan`, `inf` or `-inf`.  numpy turns a
zero denominator into `±inf` (or `nan` for `0/0`) instead of raising. -/
inductive NpVal where
  | fin (q : ℚ)
  | nan
  | inf
  | ninf
deriving DecidableEq

/-- numpy division of two finite floats. -/
def npDiv (a b : ℚ) : NpVal :=
  if b ≠ 0 then .fin (a / b)
  else if 0 < a then .inf
  else if a < 0 then .ninf
  else .nan

/-- `a - v` for finite `a` and a numpy value `v`. -/
def npSubFin (a : ℚ) : NpVal → NpVal
  | .fin q => .fin (a - q)
  | .nan => .nan
  | .inf => .ninf
  | .ninf => .inf

/-- `v ** 2` on a numpy value. -/
def npSq : NpVal → NpVal
  | .fin q => .fin (q ^ 2)
  | .nan => .nan
  | .inf => .inf
  | .ninf => .inf

/-- `round(v, d)`: the specials round to themselves. -/
def npRound (d : ℕ) : NpVal → NpVal
  | .fin q => .fin (pyRound d q)
  | v => v

/-- `np.corrcoef(obs, pred)[0, 1]`: `nan` exactly when either sample has
zero variance, else covariance over the product of standard deviations. -/
def npCorr (obs pred : List ℚ) : NpVal :=
  if varPop obs * varPop pred = 0 then .nan
  else .fin (covPop obs pred / (Rat.sqrt (varPop obs) * Rat.sqrt (varPop pred)))

/-- The single filter `valid = (obs > 0) & (pred > 0)` that
`compute_metrics` in `state_validation.py` / `state_validation_v2.py` /
`three_way_validation.py` applies before computing anything. -/
def validPairs (obs pred : List ℚ) : List (ℚ × ℚ) :=
  (obs.zip pred).filter (fun pq => decide (0 < pq.1) && decide (0 < pq.2))

/-- Number of strictly positive entries of a sample. -/
def posCount (l : List ℚ) : ℕ :=
  (l.filter (fun x => decide (0 < x))).length

/-- The result dict of `compute_metrics` in `state_validation.py` and
`state_validation_v2.py` (identical bodies). -/
structure SVMetrics where
  n : ℕ
  rmse : ℚ
  pbias : ℚ
  nse : NpVal
  r2 : NpVal
  log_nse : NpVal
deriving DecidableEq

/-- The metric values of `compute_metrics` (`state_validation.py` /
`state_validation_v2.py`) over the positively-filtered pairs: no zero
denominator is guarded, so NSE, r² and log-NSE can be `nan`/`±inf`; the
RMSE and PBIAS denominators are positive by construction. -/
def svMetricsOf (valid : List (ℚ × ℚ)) : SVMetrics :=
  { n := valid.length,
    rmse := pyRound 1 (Rat.sqrt (qmean (valid.map (fun pq => (pq.2 - pq.1) ^ 2)))),
    pbias := pyRound 1 (100 * (valid.map (fun pq => pq.2 - pq.1)).sum /
      (valid.map Prod.fst).sum),
    nse := npRound 3 (npSubFin 1 (npDiv
      ((valid.map (fun pq => (pq.1 - pq.2) ^ 2)).sum)
      (ssTotOf (valid.map Prod.fst)))),
    r2 := npRound 3 (npSq (npCorr (valid.map Prod.fst) (valid.map Prod.snd))),
    log_nse := npRound 3 (npSubFin 1 (npDiv
      ((((valid.map Prod.fst).map log10).zip
          ((valid.map Prod.snd).map log10)).map
        (fun pq => (pq.1 - pq.2) ^ 2)).sum
      (ssTotOf ((valid.map Prod.fst).map log10)))) }

/-- `compute_metrics` of `state_validation.py` / `state_validation_v2.py`:
one positive-pair filter for all metrics, `None` below 5 usable pairs. -/
def compute_metrics (observed predicted : List ℚ) : Option SVMetrics :=
  if (validPairs observed predicted).length < 5 then none
  else some (svMetricsOf (validPairs observed predicted))

/-- The result dict of `compute_metrics` in `three_way_validation.py`. -/
structure TWMetrics where
  n : ℕ
  rmse : ℚ
  pbias : ℚ
  nse : NpVal
  r : NpVal
  r2 : NpVal
  log_rmse : ℚ
  log_nse : NpVal
deriving DecidableEq

/-- The metric values of `compute_metrics` in `three_way_validation.py`
(same formulas as `svMetricsOf`, plus `r` and `log_rmse`, unrounded). -/
def twMetricsOf (valid : List (ℚ × ℚ)) : TWMetrics :=
  { n := valid.length,
    rmse := Rat.sqrt (qmean (valid.map (fun pq => (pq.2 - pq.1) ^ 2))),
    pbias := 100 * (valid.map (fun pq => pq.2 - pq.1)).sum /
      (valid.map Prod.fst).sum,
    nse := npSubFin 1 (npDiv ((valid.map (fun pq => (pq.1 - pq.2) ^ 2)).sum)
      (ssTotOf (valid.map Prod.fst))),
    r := npCorr (valid.map Prod.fst) (valid.map Prod.snd),
    r2 := npSq (npCorr (valid.map Prod.fst) (valid.map Prod.snd)),
    log_rmse := Rat.sqrt (qmean ((((valid.map Prod.snd).map log10).zip
      ((valid.map Prod.fst).map log10)).map (fun pq => (pq.1 - pq.2) ^ 2))),
    log_nse := npSubFin 1 (npDiv
      ((((valid.map Prod.fst).map log10).zip
          ((valid.map Prod.snd).map log10)).map
        (fun pq => (pq.1 - pq.2) ^ 2)).sum
      (ssTotOf ((valid.map Prod.fst).map log10))) }

/-- `compute_metrics` of `three_way_validation.py`: positive-pair filter,
`None` below 10 usable pairs. -/
def compute_metrics_threeway (observed predicted : List ℚ) : Option TWMetrics :=
  if (validPairs observed predicted).length < 10 then none
  else some (twMetricsOf (validPairs observed predicted))

/-- The NaN mask of `calculate_metrics` in `validate.py`: keep the pairs
where neither entry is missing (`~(np.isnan(obs) | np.isnan(pred))`). -/
def maskPairs (observed predicted : List (Option ℚ)) : List (ℚ × ℚ) :=
  (observed.zip predicted).filterMap (fun op =>
    match op with
    | (some a, some b) => some (a, b)
    | _ => none)

/-- The masked observed sample of `calculate_metrics`. -/
def mObs (observed predicted : List (Option ℚ)) : List ℚ :=
  (maskPairs observed predicted).map Prod.fst

/-- The masked predicted sample of `calculate_metrics`. -/
def mPred (observed predicted : List (Option ℚ)) : List ℚ :=
  (maskPairs observed predicted).map Prod.snd

/-- `errors = pred - obs` in `calculate_metrics`. -/
def errsOf (obs pred : List ℚ) : List ℚ :=
  (pred.zip obs).map (fun pq => pq.1 - pq.2)

/-- `r = np.corrcoef(obs, pred)[0, 1]` with the `np.isnan(r)` guard of
`calculate_metrics`: `none` models the NaN that numpy produces exactly when
either sample has zero variance. -/
def rOf (obs pred : List ℚ) : Option ℚ :=
  if varPop obs * varPop pred = 0 then none
  else some (covPop obs pred /
    (Rat.sqrt (varPop obs) * Rat.sqrt (varPop pred)))

/-- `pbias = 100 * sum(errors) / sum(obs) if sum(obs) != 0 else nan`. -/
def pbiasOf (obs pred : List ℚ) : Option ℚ :=
  if obs.sum ≠ 0 then some (100 * (errsOf obs pred).sum / obs.sum) else none

/-- `nse = 1 - ss_res / ss_tot if ss_tot != 0 else nan`. -/
def nseOf (obs pred : List ℚ) : Option ℚ :=
  if ssTotOf obs ≠ 0 then
    some (1 - ((errsOf obs pred).map (fun x => x ^ 2)).sum / ssTotOf obs)
  else none

/-- KGE as in `calculate_metrics`: defined exactly when both
`alpha = std(pred)/std(obs)` (needs `std(obs) != 0`) and
`beta = mean(pred)/mean(obs)` (needs `mean(obs) != 0`) are defined; an
undefined `r` is replaced by `0` (`r_kge = r if not np.isnan(r) else 0`)
rather than making the KGE missing. -/
def kgeOf (obs pred : List ℚ) : Option ℚ :=
  if npStd obs = 0 ∨ qmean obs = 0 then none
  else some (1 - Rat.sqrt (((rOf obs pred).getD 0 - 1) ^ 2 +
    (npStd pred / npStd obs - 1) ^ 2 + (qmean pred / qmean obs - 1) ^ 2))

/-- The log-space RMSE of `calculate_metrics`: the observed and predicted
samples are positivity-filtered INDEPENDENTLY of each other
(`obs[obs > 0]`, `pred[pred > 0]`), and the metric is computed only when
both filtered sequences have more than one element and happen to have equal
lengths — the subtracted entries need not come from the same pair. -/
def logRmseOf (obs pred : List ℚ) : Option ℚ :=
  if 1 < ((obs.filter (fun x => decide (0 < x))).map log10).length ∧
      1 < ((pred.filter (fun x => decide (0 < x))).map log10).length ∧
      ((obs.filter (fun x => decide (0 < x))).map log10).length =
        ((pred.filter (fun x => decide (0 < x))).map log10).length then
    some (Rat.sqrt (qmean
      ((((pred.filter (fun x => decide (0 < x))).map log10).zip
          ((obs.filter (fun x => decide (0 < x))).map log10)).map
        (fun pq => (pq.1 - pq.2) ^ 2))))
  else none

/-- The full metrics dict of `calculate_metrics` in `validate.py`; `none`
models a `None` entry (a NaN metric reported as missing). -/
structure LinMetrics where
  n : ℕ
  r : Option ℚ
  r2 : Option ℚ
  mae_cfs : ℚ
  rmse_cfs : ℚ
  log_rmse : Option ℚ
  pbias_pct : Option ℚ
  nse : Option ℚ
  kge : Option ℚ
deriving DecidableEq

/-- Result of `calculate_metrics`: either the
`{"n": n, "error": "Insufficient data"}` dict or the full metrics dict. -/
inductive CalcResult where
  | insufficient (n : ℕ)
  | metrics (m : LinMetrics)
deriving DecidableEq

/-- The full metrics dict of `calculate_metrics` over the masked samples. -/
def linMetricsOf (obs pred : List ℚ) : LinMetrics :=
  { n := obs.length,
    r := (rOf obs pred).map (pyRound 4),
    r2 := ((rOf obs pred).map (fun x => x ^ 2)).map (pyRound 4),
    mae_cfs := pyRound 2 (qmean ((errsOf obs pred).map (fun x => |x|))),
    rmse_cfs := pyRound 2 (Rat.sqrt (qmean
      ((errsOf obs pred).map (fun x => x ^ 2)))),
    log_rmse := (logRmseOf obs pred).map (pyRound 4),
    pbias_pct := (pbiasOf obs pred).map (pyRound 2),
    nse := (nseOf obs pred).map (pyRound 4),
    kge := (kgeOf obs pred).map (pyRound 4) }

/-- `calculate_metrics` of `validate.py`: drop NaN pairs, return the
insufficiency dict below 2 usable pairs, else the full metrics dict. -/
def calculate_metrics (observed predicted : List (Option ℚ)) : CalcResult :=
  if (mObs observed predicted).length < 2 then
    .insufficient (mObs observed predicted).length
  else .metrics (linMetricsOf (mObs observed predicted)
    (mPred observed predicted))

/-- The reported `n`. -/
def CalcResult.nOf : CalcResult → ℕ
  | .insufficient k => k
  | .metrics m => m.n

/-- Whether a full metrics dict (not the insufficiency sentinel) came back. -/
def CalcResult.isMetrics : CalcResult → Bool
  | .insufficient _ => false
  | .metrics _ => true

/-- The reported `r` (`none` when the sentinel came back). -/
def CalcResult.rField : CalcResult → Option ℚ
  | .insufficient _ => none
  | .metrics m => m.r

/-- The reported `kge`. -/
def CalcResult.kgeField : CalcResult → Option ℚ
  | .insufficient _ => none
  | .metrics m => m.kge

/-- The reported `nse`. -/
def CalcResult.nseField : CalcResult → Option ℚ
  | .insufficient _ => none
  | .metrics m => m.nse

/-- The reported `log_rmse`. -/
def CalcResult.logRmseField : CalcResult → Option ℚ
  | .insufficient _ => none
  | .metrics m => m.log_rmse

/-- The observed sample of the spec's zero-handling example. -/
def exObs : List (Option ℚ) := [some 0, some 10, some 20, some 30]

/-- The predicted sample of the spec's zero-handling example. -/
def exPred : List (Option ℚ) := [some 1, some 12, some 22, some 28]

lemma mem_dictSet {α β : Type} [BEq α] (m : PyDict α β) (k : α) (v : β)
    (p : α × β) (hp : p ∈ dictSet m k v) : p ∈ m ∨ p = (k, v) := by
  unfold dictSet at hp
  split at hp
  · obtain ⟨q, hq, hqe⟩ := List.mem_map.1 hp
    by_cases hk : q.1 == k
    · right
      rw [if_pos hk] at hqe
      exact hqe.symm
    · left
      rw [if_neg hk] at hqe
      exact hqe ▸ hq
  · rcases List.mem_append.1 hp with h | h
    · exact Or.inl h
    · right
      simpa using h

lemma mem_foldl_step {α β σ : Type} (step : PyDict α β → σ → PyDict α β)
    (P : σ → α × β → Prop)
    (hstep : ∀ m x p, p ∈ step m x → p ∈ m ∨ P x p) :
    ∀ (l : List σ) (acc : PyDict α β) (p : α × β),
      p ∈ l.foldl step acc → p ∈ acc ∨ ∃ x ∈ l, P x p := by
  intro l
  induction l with
  | nil => exact fun acc p hp => Or.inl hp
  | cons x t ih =>
      intro acc p hp
      rcases ih (step acc x) p hp with h | ⟨y, hy, hP⟩
      · rcases hstep acc x p h with h' | hP
        · exact Or.inl h'
        · exact Or.inr ⟨x, List.mem_cons_self x t, hP⟩
      · exact Or.inr ⟨y, List.mem_cons_of_mem x hy, hP⟩

lemma stepV1_origin (m : PyDict String ℚ) (s : TimeSeries) (p : String × ℚ)
    (hp : p ∈ stepV1 m s) : p ∈ m ∨ originV1 p s := by
  obtain ⟨code, values⟩ := s
  cases values with
  | nil => exact Or.inl hp
  | cons v t =>
      have hp' : p ∈ (if 0 ≤ v.value then dictSet m code v.value else m) := hp
      split at hp'
      · rcases mem_dictSet _ _ _ _ hp' with h | h
        · exact Or.inl h
        · exact Or.inr ⟨by rw [h], v, rfl, by rw [h], by assumption⟩
      · exact Or.inl hp'

lemma stepV2_origin (date : String) (m : PyDict String ℚ) (s : TimeSeries)
    (p : String × ℚ) (hp : p ∈ stepV2 date m s) : p ∈ m ∨ originV2 date p s := by
  obtain ⟨code, values⟩ := s
  cases values with
  | nil => exact Or.inl hp
  | cons v t =>
      have hp' : p ∈ (if strTake10 v.dateTime = date then
          (if 0 ≤ v.value then dictSet m code v.value else m) else m) := hp
      split at hp'
      · split at hp'
        · rcases mem_dictSet _ _ _ _ hp' with h | h
          · exact Or.inl h
          · exact Or.inr ⟨by rw [h], v, rfl, by assumption, by rw [h],
              by assumption⟩
        · exact Or.inl hp'
      · exact Or.inl hp'

lemma mem_fetchV1 (seriesList : List TimeSeries) (date : String)
    (p : String × ℚ) (hp : p ∈ fetch_usgs_batch_v1 seriesList date) :
    ∃ s ∈ seriesList, originV1 p s := by
  rcases mem_foldl_step stepV1 (fun s q => originV1 q s)
      (fun m x q => stepV1_origin m x q) seriesList [] p hp with h | h
  · cases h
  · exact h

lemma mem_fetchV2 (seriesList : List TimeSeries) (date : String)
    (p : String × ℚ) (hp : p ∈ fetch_usgs_batch_v2 seriesList date) :
    ∃ s ∈ seriesList, originV2 date p s := by
  rcases mem_foldl_step (stepV2 date) (fun s q => originV2 date q s)
      (fun m x q => stepV2_origin date m x q) seriesList [] p hp with h | h
  · cases h
  · exact h

/-- C1: in the v2 gauge fetcher every entry of the returned site-to-flow
mapping originates from a response value whose date (first 10 characters of
`dateTime`) equals the requested target date — a mismatched date never
enters the mapping. -/
theorem fetchV2_only_matching_date (seriesList : List TimeSeries)
    (date : String) (p : String × ℚ)
    (hp : p ∈ fetch_usgs_batch_v2 seriesList date) :
    ∃ s ∈ seriesList, originV2 date p s :=
  mem_fetchV2 seriesList date p hp

/-- C1 witness: a concrete matched fetch, resolved through the theorem. -/
theorem fetchV2_only_matching_date_witness :
    ∃ s ∈ [TimeSeries.mk "01646500" [SeriesValue.mk "2024-07-15T00:00:00" 5]],
      originV2 "2024-07-15" ("01646500", (5 : ℚ)) s :=
  fetchV2_only_matching_date _ "2024-07-15" _ (by decide)

/-- C1 counterexample: the v1 fetcher (`state_validation.py`, and the
identical `fetch_usgs_data` of `three_way_validation.py`) accepts a value
dated 2024-07-16 into the mapping for a 2024-07-15 request: the entry is
present, yet no series provides it with a matching date. -/
theorem fetchV1_accepts_mismatched_date :
    ("01646500", (5 : ℚ)) ∈
        fetch_usgs_batch_v1
          [TimeSeries.mk "01646500" [SeriesValue.mk "2024-07-16T00:00:00" 5]]
          "2024-07-15" ∧
      ¬ ∃ s ∈ [TimeSeries.mk "01646500" [SeriesValue.mk "2024-07-16T00:00:00" 5]],
          originV2 "2024-07-15" ("01646500", (5 : ℚ)) s := by
  constructor
  · decide
  · rintro ⟨s, hs, hsite, v, hv, hdate, -⟩
    have hs' : s = TimeSeries.mk "01646500" [SeriesValue.mk "2024-07-16T00:00:00" 5] := by
      simpa using hs
    rw [hs'] at hv
    have hv' : SeriesValue.mk "2024-07-16T00:00:00" 5 = v := Option.some.inj hv
    rw [← hv'] at hdate
    exact absurd hdate (by decide)

/-- C10: every flow stored by either batch gauge fetcher is non-negative —
a negative reading (the upstream missing-data sentinel) is discarded. -/
theorem gauge_values_nonneg :
    (∀ (seriesList : List TimeSeries) (date : String) (p : String × ℚ),
        p ∈ fetch_usgs_batch_v1 seriesList date → 0 ≤ p.2) ∧
      (∀ (seriesList : List TimeSeries) (date : String) (p : String × ℚ),
        p ∈ fetch_usgs_batch_v2 seriesList date → 0 ≤ p.2) := by
  constructor
  · intro seriesList date p hp
    obtain ⟨s, -, -, v, -, hval, hge⟩ := mem_fetchV1 seriesList date p hp
    exact hval ▸ hge
  · intro seriesList date p hp
    obtain ⟨s, -, -, v, -, -, hval, hge⟩ := mem_fetchV2 seriesList date p hp
    exact hval ▸ hge

/-- C10 witness: the theorem applied to a concrete fetched entry. -/
theorem gauge_values_nonneg_witness :
    0 ≤ (("01646500", (3 : ℚ)) : String × ℚ).2 :=
  gauge_values_nonneg.1
    [TimeSeries.mk "01646500" [SeriesValue.mk "2024-07-15T00:00:00" 3]]
    "2024-07-15" _ (by decide)

lemma dictGet_some_mem {α β : Type} [BEq α] [LawfulBEq α] (m : PyDict α β)
    (k : α) (v : β) (h : dictGet m k = some v) : (k, v) ∈ m := by
  unfold dictGet at h
  rcases hf : m.find? (fun p => p.1 == k) with _ | q
  · rw [hf] at h
    cases h
  · rw [hf] at h
    have hv : q.2 = v := Option.some.inj h
    have hmem := List.mem_of_find?_eq_some hf
    have hpred := List.find?_some hf
    have hk : q.1 = k := by simpa using hpred
    have : (k, v) = q := by
      obtain ⟨q1, q2⟩ := q
      simp at hk hv
      rw [hk, hv]
    rw [this]
    exact hmem

lemma rowFor_some (hpp usgs : PyDict String ℚ) (xwalk : PyDict String ℤ)
    (nwm : PyDict ℤ ℚ) (date : String) (site : SiteRec) (row : CompRow)
    (h : rowFor hpp usgs xwalk nwm date site = some row) :
    dictGet hpp site.uuid = some row.hpp_cfs ∧
      dictGet usgs site.site_id = some row.usgs_cfs ∧
      row.uuid = site.uuid ∧ row.site_id = site.site_id ∧
      row.comid = dictGet xwalk site.site_id ∧
      row.nwm_cfs = nwmFlowFor xwalk nwm site.site_id := by
  unfold rowFor at h
  rw [Option.bind_eq_some] at h
  obtain ⟨hf, hhf, h⟩ := h
  rw [Option.map_eq_some'] at h
  obtain ⟨uf, huf, h⟩ := h
  rw [← h]
  exact ⟨hhf, huf, rfl, rfl, rfl, rfl⟩

/-- C2: in the v2 comparison dataset, the NWM value of a row is obtained
only by looking up the comid resolved by the crosswalk for that site's
gauge id: if the crosswalk resolves nothing for the site, the row's NWM
value is `none`; and whenever the NWM value is present it is exactly the
NWM-lookup entry at the resolved comid recorded in the row. -/
theorem buildRowsV2_no_comid_no_nwm (sites : List SiteRec)
    (hpp usgs : PyDict String ℚ) (xwalk : PyDict String ℤ)
    (nwm : PyDict ℤ ℚ) (date : String) (row : CompRow)
    (hrow : row ∈ build_rows_v2 sites hpp usgs xwalk nwm date) :
    (dictGet xwalk row.site_id = none → row.nwm_cfs = none) ∧
      (∀ v, row.nwm_cfs = some v →
        ∃ c, dictGet xwalk row.site_id = some c ∧ row.comid = some c ∧
          dictGet nwm c = some v) := by
  obtain ⟨site, hsite, hr⟩ := List.mem_filterMap.1 hrow
  obtain ⟨-, -, -, hsid, hcomid, hnwm⟩ := rowFor_some _ _ _ _ _ _ _ hr
  rw [hsid, hcomid, hnwm]
  constructor
  · intro hnone
    unfold nwmFlowFor
    rw [hnone]
    rfl
  · intro v hv
    unfold nwmFlowFor at hv
    rw [Option.bind_eq_some] at hv
    obtain ⟨c, hc, hif⟩ := hv
    refine ⟨c, hc, by rw [hc], ?_⟩
    by_cases hc0 : c ≠ 0
    · rw [if_pos hc0] at hif
      exact hif
    · rw [if_neg hc0] at hif
      cases hif

/-- C2 witness: a site whose gauge id the crosswalk does not resolve gets a
row with no NWM value. -/
theorem buildRowsV2_no_comid_no_nwm_witness :
    (dictGet ([] : PyDict String ℤ) (cexSite.site_id) = none →
        (CompRow.mk "u1" "09000001" none "TX" "2024-07-15" 5 7 none).nwm_cfs = none) ∧
      (∀ v, (CompRow.mk "u1" "09000001" none "TX" "2024-07-15" 5 7 none).nwm_cfs = some v →
        ∃ c, dictGet ([] : PyDict String ℤ) (CompRow.mk "u1" "09000001" none "TX" "2024-07-15" 5 7 none).site_id = some c ∧
          (CompRow.mk "u1" "09000001" none "TX" "2024-07-15" 5 7 none).comid = some c ∧
          dictGet ([] : PyDict ℤ ℚ) c = some v) := by
  have h := buildRowsV2_no_comid_no_nwm [cexSite] [("u1", (5 : ℚ))]
    [("09000001", (7 : ℚ))] [] [] "2024-07-15"
    (CompRow.mk "u1" "09000001" none "TX" "2024-07-15" 5 7 none) (by decide)
  exact ⟨fun _ => h.1 (by decide), h.2⟩

lemma mem_nwm_lookup_of (nwmTable : List (ℤ × ℚ)) (p : ℤ × ℚ)
    (hp : p ∈ nwm_lookup_of nwmTable) :
    ∃ x ∈ nwmTable, p = (x.1, x.2 * CMS_TO_CFS) := by
  unfold nwm_lookup_of at hp
  rcases mem_foldl_step (fun m row => dictSet m row.1 (row.2 * CMS_TO_CFS))
      (fun x q => q = (x.1, x.2 * CMS_TO_CFS))
      (fun m x q hq => mem_dictSet _ _ _ _ hq) nwmTable [] p hp with h | h
  · cases h
  · exact h

lemma mem_nwmPhase1 (nwmVelocity : List (ℤ × Option ℚ)) (comids : List ℤ)
    (p : ℤ × ℚ) (hp : p ∈ nwmPhase1 nwmVelocity comids) :
    ∃ x ∈ nwmVelocity, x.1 = p.1 ∧ x.2 = some (p.2 / CMS_TO_CFS) ∧
      ∃ cms, x.2 = some cms ∧ p.2 = cms * CMS_TO_CFS := by
  unfold nwmPhase1 at hp
  have hstep : ∀ (m : PyDict ℤ ℚ) (x : ℤ × Option ℚ) (q : ℤ × ℚ),
      q ∈ (fun (m : PyDict ℤ ℚ) (r : ℤ × Option ℚ) =>
        match r.2 with
        | some cms => dictSet m r.1 (cms * CMS_TO_CFS)
        | none => m) m x →
      q ∈ m ∨ (x.1 = q.1 ∧ ∃ cms, x.2 = some cms ∧ q.2 = cms * CMS_TO_CFS) := by
    intro m x q hq
    obtain ⟨x1, x2⟩ := x
    cases x2 with
    | none => exact Or.inl hq
    | some cms =>
        rcases mem_dictSet _ _ _ _ hq with h | h
        · exact Or.inl h
        · exact Or.inr ⟨by rw [h], cms, rfl, by rw [h]⟩
  rcases mem_foldl_step _ _ hstep _ [] p hp with h | ⟨x, hx, hx1, cms, hcms, hval⟩
  · cases h
  · refine ⟨x, (List.mem_filter.1 hx).1, hx1, ?_, cms, hcms, hval⟩
    rw [hcms, hval]
    have hc : CMS_TO_CFS ≠ 0 := by norm_num [CMS_TO_CFS]
    rw [mul_div_assoc, div_self hc, mul_one]

/-- C7: the cms → cfs normalization is applied exactly once.  First part:
in the v2 pipeline, every NWM value appearing in a comparison row equals
`streamflow_cms * 35.3147` for the ingested NWM record at the row's
resolved comid.  Second part: every value produced by `fetch_nwm_data` of
`three_way_validation.py` is either `streamflow_cms * 35.3147` for a
requested `nwm_velocity` record, or an already-canonical
`river_edges.flow_cfs` value passed through unconverted — never converted
twice. -/
theorem cms_to_cfs_applied_once :
    (∀ (nwmTable : List (ℤ × ℚ)) (sites : List SiteRec)
        (hpp usgs : PyDict String ℚ) (xwalk : PyDict String ℤ) (date : String)
        (row : CompRow) (v : ℚ),
        row ∈ build_rows_v2 sites hpp usgs xwalk (nwm_lookup_of nwmTable) date →
        row.nwm_cfs = some v →
        ∃ x ∈ nwmTable, row.comid = some x.1 ∧ v = x.2 * CMS_TO_CFS) ∧
      (∀ (nwmVelocity riverEdges : List (ℤ × Option ℚ)) (comids : List ℤ)
        (p : ℤ × ℚ), p ∈ fetch_nwm_data nwmVelocity riverEdges comids →
        (∃ x ∈ nwmVelocity, x.1 = p.1 ∧
            ∃ cms, x.2 = some cms ∧ p.2 = cms * CMS_TO_CFS) ∨
          ∃ x ∈ riverEdges, x.1 = p.1 ∧ x.2 = some p.2) := by
  constructor
  · intro nwmTable sites hpp usgs xwalk date row v hrow hv
    obtain ⟨site, hsite, hr⟩ := List.mem_filterMap.1 hrow
    obtain ⟨-, -, -, -, hcomid, hnwm⟩ := rowFor_some _ _ _ _ _ _ _ hr
    rw [hnwm] at hv
    unfold nwmFlowFor at hv
    rw [Option.bind_eq_some] at hv
    obtain ⟨c, hc, hif⟩ := hv
    by_cases hc0 : c ≠ 0
    · rw [if_pos hc0] at hif
      obtain ⟨x, hx, hxeq⟩ :=
        mem_nwm_lookup_of nwmTable (c, v) (dictGet_some_mem _ _ _ hif)
      have hx1 : c = x.1 := congrArg Prod.fst hxeq
      have hx2 : v = x.2 * CMS_TO_CFS := congrArg Prod.snd hxeq
      exact ⟨x, hx, by rw [hcomid, hc, hx1], hx2⟩
    · rw [if_neg hc0] at hif
      cases hif
  · intro nwmVelocity riverEdges comids p hp
    have hstep : ∀ (m : PyDict ℤ ℚ) (x : ℤ × Option ℚ) (q : ℤ × ℚ),
        q ∈ (fun (m : PyDict ℤ ℚ) (r : ℤ × Option ℚ) =>
          match r.2 with
          | some f => if m.any (fun p => p.1 == r.1) then m else dictSet m r.1 f
          | none => m) m x →
        q ∈ m ∨ (x.1 = q.1 ∧ x.2 = some q.2) := by
      intro m x q hq
      obtain ⟨x1, x2⟩ := x
      cases x2 with
      | none => exact Or.inl hq
      | some f =>
          have hq' : q ∈ (if m.any (fun p => p.1 == x1) then m
              else dictSet m x1 f) := hq
          split at hq'
          · exact Or.inl hq'
          · rcases mem_dictSet _ _ _ _ hq' with h | h
            · exact Or.inl h
            · exact Or.inr ⟨by rw [h], by rw [h]⟩
    rcases mem_foldl_step _ _ hstep _ (nwmPhase1 nwmVelocity comids) p hp
      with h | ⟨x, hx, hx1, hx2⟩
    · obtain ⟨x, hx, hx1, -, cms, hcms, hval⟩ := mem_nwmPhase1 _ _ _ h
      exact Or.inl ⟨x, hx, hx1, cms, hcms, hval⟩
    · exact Or.inr ⟨x, (List.mem_filter.1 hx).1, hx1, by rw [hx2]⟩

/-- C7 witness: a raw value of 2 cms reaches the comparison row as exactly
`2 * 35.3147` cfs. -/
theorem cms_to_cfs_applied_once_witness :
    ∃ x ∈ [((11 : ℤ), (2 : ℚ))],
      (CompRow.mk "u1" "09000001" (some 11) "TX" "2024-07-15" 5 7
          (some (2 * CMS_TO_CFS))).comid = some x.1 ∧
        2 * CMS_TO_CFS = x.2 * CMS_TO_CFS :=
  cms_to_cfs_applied_once.1 [((11 : ℤ), (2 : ℚ))] [cexSite]
    [("u1", (5 : ℚ))] [("09000001", (7 : ℚ))] [("09000001", (11 : ℤ))]
    "2024-07-15"
    (CompRow.mk "u1" "09000001" (some 11) "TX" "2024-07-15" 5 7
      (some (2 * CMS_TO_CFS)))
    (2 * CMS_TO_CFS) (List.mem_cons_self _ _) rfl

/-- C8 amended: a comparison row is produced exactly for the sites having
BOTH a model (HPP) value and a gauge (USGS) value; the reach-model value is
optional.  Every emitted row carries both values, and every site with both
values yields a row. -/
theorem rows_require_model_and_gauge :
    (∀ (sites : List SiteRec) (hpp usgs : PyDict String ℚ)
        (xwalk : PyDict String ℤ) (nwm : PyDict ℤ ℚ) (date : String)
        (row : CompRow), row ∈ build_rows_v2 sites hpp usgs xwalk nwm date →
        dictGet hpp row.uuid = some row.hpp_cfs ∧
          dictGet usgs row.site_id = some row.usgs_cfs) ∧
      (∀ (sites : List SiteRec) (hpp usgs : PyDict String ℚ)
        (xwalk : PyDict String ℤ) (nwm : PyDict ℤ ℚ) (date : String)
        (site : SiteRec) (h u : ℚ), site ∈ sites →
        dictGet hpp site.uuid = some h → dictGet usgs site.site_id = some u →
        ∃ row ∈ build_rows_v2 sites hpp usgs xwalk nwm date,
          row.uuid = site.uuid ∧ row.site_id = site.site_id ∧
            row.hpp_cfs = h ∧ row.usgs_cfs = u) := by
  constructor
  · intro sites hpp usgs xwalk nwm date row hrow
    obtain ⟨site, hsite, hr⟩ := List.mem_filterMap.1 hrow
    obtain ⟨hh, hu, huuid, hsid, -, -⟩ := rowFor_some _ _ _ _ _ _ _ hr
    rw [huuid, hsid]
    exact ⟨hh, hu⟩
  · intro sites hpp usgs xwalk nwm date site h u hsite hh hu
    have hr : rowFor hpp usgs xwalk nwm date site =
        some { uuid := site.uuid, site_id := site.site_id,
               comid := dictGet xwalk site.site_id, st := site.st,
               date := date, hpp_cfs := h, usgs_cfs := u,
               nwm_cfs := nwmFlowFor xwalk nwm site.site_id } := by
      unfold rowFor
      rw [hh, hu]
      rfl
    exact ⟨_, List.mem_filterMap.2 ⟨site, hsite, hr⟩, rfl, rfl, rfl, rfl⟩

/-- C8 witness: a site with both values receives its row. -/
theorem rows_require_model_and_gauge_witness :
    ∃ row ∈ build_rows_v2 [cexSite] [("u1", (5 : ℚ))] [("09000001", (7 : ℚ))]
        [] [] "2024-07-15",
      row.uuid = cexSite.uuid ∧ row.site_id = cexSite.site_id ∧
        row.hpp_cfs = 5 ∧ row.usgs_cfs = 7 :=
  rows_require_model_and_gauge.2 [cexSite] [("u1", (5 : ℚ))]
    [("09000001", (7 : ℚ))] [] [] "2024-07-15" cexSite 5 7 (by decide)
    (by decide) (by decide)

/-- C8 counterexample: a site holding a model (HPP) value but no gauge value
— one non-missing value from a source — produces NO comparison row: the
reconciler requires a gauge value (and, symmetrically, an HPP value), so
the claimed "at least one non-missing value from any source" rule fails. -/
theorem model_only_site_dropped :
    build_rows_v2 [cexSite] [("u1", (5 : ℚ))] [] [] [] "2024-07-15" = [] ∧
      dictGet [("u1", (5 : ℚ))] cexSite.uuid = some 5 := by
  decide

lemma minFold_spec : ∀ (t : List RiverEdge) (b : RiverEdge),
    (minFold t b = b ∨ minFold t b ∈ t) ∧ (minFold t b).dist ≤ b.dist ∧
      ∀ x ∈ t, (minFold t b).dist ≤ x.dist := by
  intro t
  induction t with
  | nil =>
      intro b
      exact ⟨Or.inl rfl, le_refl _, fun x hx => absurd hx (List.not_mem_nil x)⟩
  | cons x t ih =>
      intro b
      have hfold : minFold (x :: t) b = minFold t (if x.dist < b.dist then x else b) := rfl
      obtain ⟨hmem, hle, hall⟩ := ih (if x.dist < b.dist then x else b)
      refine ⟨?_, ?_, ?_⟩
      · rw [hfold]
        rcases hmem with h | h
        · rw [h]
          split
          · exact Or.inr (List.mem_cons_self x t)
          · exact Or.inl rfl
        · exact Or.inr (List.mem_cons_of_mem x h)
      · rw [hfold]
        refine le_trans hle ?_
        split
        · exact le_of_lt (by assumption)
        · exact le_refl _
      · intro y hy
        rw [hfold]
        rcases List.mem_cons.1 hy with h | h
        · rw [h]
          refine le_trans hle ?_
          split
          · exact le_refl _
          · exact le_of_not_lt (by assumption)
        · exact hall y h

lemma argmin_spec (l : List RiverEdge) (e : RiverEdge)
    (h : argminByDist l = some e) : e ∈ l ∧ ∀ x ∈ l, e.dist ≤ x.dist := by
  cases l with
  | nil => cases h
  | cons a t =>
      have he : minFold t a = e := Option.some.inj h
      obtain ⟨hmem, hle, hall⟩ := minFold_spec t a
      rw [he] at hmem hle hall
      constructor
      · rcases hmem with h1 | h1
        · rw [h1]
          exact List.mem_cons_self a t
        · exact List.mem_cons_of_mem a h1
      · intro x hx
        rcases List.mem_cons.1 hx with h1 | h1
        · rw [h1]
          exact hle
        · exact hall x h1

lemma minFoldKnn_spec : ∀ (t : List CrosswalkEdge) (b : CrosswalkEdge),
    (minFoldKnn t b = b ∨ minFoldKnn t b ∈ t) ∧
      (minFoldKnn t b).knnDist ≤ b.knnDist ∧
      ∀ x ∈ t, (minFoldKnn t b).knnDist ≤ x.knnDist := by
  intro t
  induction t with
  | nil =>
      intro b
      exact ⟨Or.inl rfl, le_refl _, fun x hx => absurd hx (List.not_mem_nil x)⟩
  | cons x t ih =>
      intro b
      have hfold : minFoldKnn (x :: t) b =
          minFoldKnn t (if x.knnDist < b.knnDist then x else b) := rfl
      obtain ⟨hmem, hle, hall⟩ := ih (if x.knnDist < b.knnDist then x else b)
      refine ⟨?_, ?_, ?_⟩
      · rw [hfold]
        rcases hmem with h | h
        · rw [h]
          split
          · exact Or.inr (List.mem_cons_self x t)
          · exact Or.inl rfl
        · exact Or.inr (List.mem_cons_of_mem x h)
      · rw [hfold]
        refine le_trans hle ?_
        split
        · exact le_of_lt (by assumption)
        · exact le_refl _
      · intro y hy
        rw [hfold]
        rcases List.mem_cons.1 hy with h | h
        · rw [h]
          refine le_trans hle ?_
          split
          · exact le_refl _
          · exact le_of_not_lt (by assumption)
        · exact hall y h

lemma argminKnn_spec (l : List CrosswalkEdge) (e : CrosswalkEdge)
    (h : argminByKnn l = some e) :
    e ∈ l ∧ ∀ x ∈ l, e.knnDist ≤ x.knnDist := by
  cases l with
  | nil => cases h
  | cons a t =>
      have he : minFoldKnn t a = e := Option.some.inj h
      obtain ⟨hmem, hle, hall⟩ := minFoldKnn_spec t a
      rw [he] at hmem hle hall
      constructor
      · rcases hmem with h1 | h1
        · rw [h1]
          exact List.mem_cons_self a t
        · exact List.mem_cons_of_mem a h1
      · intro x hx
        rcases List.mem_cons.1 hx with h1 | h1
        · rw [h1]
          exact hle
        · exact hall x h1

/-- C6 amended: both per-site resolvers are pure functions of the candidate
table and radius (so two runs on identical inputs agree definitionally).
`match_coords_to_comid` returns a comid of a within-radius candidate whose
geography meter distance is minimal among within-radius candidates (its SQL
orders by the same measure it thresholds).  `build_crosswalk.py` returns a
comid of a candidate that is nearest in the planar `geom <-> point` KNN key
and whose geography METER distance is below 500 — nearest in the degree
key, not necessarily in meters, since the query orders by one measure and
thresholds the other.  Ties at equal ordering keys are broken by the
candidate table's order (first listed wins), not by ascending reach id. -/
theorem resolver_min_distance :
    (∀ (table : List RiverEdge) (maxDistM : ℚ) (c : ℤ),
        match_coords_to_comid_site table maxDistM = some c →
        ∃ e ∈ table, e.comid = c ∧ e.dist ≤ maxDistM ∧
          ∀ x ∈ table, x.dist ≤ maxDistM → e.dist ≤ x.dist) ∧
      (∀ (table : List CrosswalkEdge) (c : ℤ) (nm : String) (dm : ℚ),
        build_crosswalk_site table = some (c, nm, dm) →
        ∃ e ∈ table, e.comid = c ∧ e.dist < 500 ∧
          ∀ x ∈ table, e.knnDist ≤ x.knnDist) := by
  constructor
  · intro table maxDistM c h
    unfold match_coords_to_comid_site at h
    rw [Option.map_eq_some'] at h
    obtain ⟨e, he, hec⟩ := h
    obtain ⟨hmem, hmin⟩ := argmin_spec _ _ he
    have hin := List.mem_filter.1 hmem
    refine ⟨e, hin.1, hec, of_decide_eq_true hin.2, ?_⟩
    intro x hx hxd
    exact hmin x (List.mem_filter.2 ⟨hx, decide_eq_true hxd⟩)
  · intro table c nm dm h
    unfold build_crosswalk_site at h
    rw [Option.bind_eq_some] at h
    obtain ⟨e, he, hif⟩ := h
    obtain ⟨hmem, hmin⟩ := argminKnn_spec _ _ he
    split at hif
    · have hc : e.comid = c := congrArg (fun p => p.1) (Option.some.inj hif)
      exact ⟨e, hmem, hc, by assumption, hmin⟩
    · cases hif

/-- C6 witness: a lone candidate at 50 m resolves to itself. -/
theorem resolver_min_distance_witness :
    ∃ e ∈ [RiverEdge.mk 9 "r" 50], e.comid = 9 ∧ e.dist ≤ 500 ∧
      ∀ x ∈ [RiverEdge.mk 9 "r" 50], x.dist ≤ 500 → e.dist ≤ x.dist :=
  resolver_min_distance.1 [RiverEdge.mk 9 "r" 50] 500 9 (by decide)

/-- C6 counterexample: two candidates at the same distance (100 m), listed
with the larger comid 7 first; the resolver returns comid 7, not the
ascending-id tie-break winner 3 that the claim requires. -/
theorem tie_break_not_ascending_id :
    match_coords_to_comid_site
        [RiverEdge.mk 7 "a" 100, RiverEdge.mk 3 "b" 100] 500 = some 7 ∧
      (RiverEdge.mk 7 "a" 100).dist = (RiverEdge.mk 3 "b" 100).dist ∧
      (3 : ℤ) < 7 := by
  decide

lemma ratSqrt_ne_zero {q : ℚ} (hq : 0 < q) : Rat.sqrt q ≠ 0 := by
  unfold Rat.sqrt
  have hden : Nat.sqrt q.den ≠ 0 :=
    (Nat.sqrt_pos.2 (Nat.pos_of_ne_zero q.den_nz)).ne'
  rw [Rat.mkRat_ne_zero hden]
  have hnum : 0 < q.num := Rat.num_pos.2 hq
  unfold Int.sqrt
  have h1 : 0 < Nat.sqrt q.num.toNat := Nat.sqrt_pos.2 (by omega)
  exact_mod_cast h1.ne'

lemma logRmseOf_eq_none_iff (obs pred : List ℚ) :
    logRmseOf obs pred = none ↔
      (posCount obs ≤ 1 ∨ posCount pred ≤ 1 ∨ posCount obs ≠ posCount pred) := by
  unfold logRmseOf posCount
  simp only [List.length_map]
  split
  · rename_i h
    exact iff_of_false (Option.some_ne_none _) (by omega)
  · rename_i h
    exact iff_of_true rfl (by omega)

/-- C3 amended: on `observed = [0,10,20,30]`, `predicted = [1,12,22,28]`,
the engine of `validate.py` keeps all 4 non-missing pairs for the linear
metrics (`n = 4`) but filters the log inputs per array (3 positive observed
against 4 positive predicted), so the mismatched lengths make the log
metric missing rather than a 3-pair statistic; and the engine of
`state_validation.py` applies its single positive-pair filter (3 pairs) to
ALL metrics, returning the insufficiency sentinel since 3 < 5 — filtering
is not independent per metric family in either engine as claimed. -/
theorem metrics_example_filtering_amended :
    CalcResult.nOf (calculate_metrics exObs exPred) = 4 ∧
      posCount (mObs exObs exPred) = 3 ∧ posCount (mPred exObs exPred) = 4 ∧
      CalcResult.logRmseField (calculate_metrics exObs exPred) = none ∧
      compute_metrics [0, 10, 20, 30] [1, 12, 22, 28] = none ∧
      (validPairs [0, 10, 20, 30] [1, 12, 22, 28]).length = 3 := by
  decide

/-- C3 counterexample: at the claim's own example the
`state_validation.py` engine returns no linear metrics at all (the claimed
linear n = 4 is impossible — its positive-pair filter leaves 3 < 5 pairs),
and the `validate.py` engine reports the log metric as missing instead of
computing it over the claimed 3 usable pairs. -/
theorem metrics_example_filtering_cex :
    compute_metrics [0, 10, 20, 30] [1, 12, 22, 28] = none ∧
      CalcResult.logRmseField (calculate_metrics exObs exPred) = none := by
  decide

/-- C4 amended: `compute_metrics` of `state_validation.py` /
`state_validation_v2.py` returns the `None` sentinel whenever its usable
(positive-pair) count is below its floor of 5, `compute_metrics` of
`three_way_validation.py` below its floor of 10, and `calculate_metrics`
of `validate.py` returns its insufficiency dict below its floor of 2
non-NaN pairs — the floors are 5, 10 and 2, not 5 and 10 across the board. -/
theorem sample_floor_policies :
    (∀ observed predicted : List ℚ,
        (validPairs observed predicted).length < 5 →
        compute_metrics observed predicted = none) ∧
      (∀ observed predicted : List ℚ,
        (validPairs observed predicted).length < 10 →
        compute_metrics_threeway observed predicted = none) ∧
      (∀ observed predicted : List (Option ℚ),
        (mObs observed predicted).length < 2 →
        calculate_metrics observed predicted =
          CalcResult.insufficient (mObs observed predicted).length) := by
  refine ⟨?_, ?_, ?_⟩
  · intro observed predicted h
    unfold compute_metrics
    rw [if_pos h]
  · intro observed predicted h
    unfold compute_metrics_threeway
    rw [if_pos h]
  · intro observed predicted h
    unfold calculate_metrics
    rw [if_pos h]

/-- C4 witness: 3 usable pairs are below the floor of 5. -/
theorem sample_floor_policies_witness :
    (validPairs [1, 2, 3] [2, 3, 5]).length < 5 ∧
      compute_metrics [1, 2, 3] [2, 3, 5] = none :=
  ⟨by decide, sample_floor_policies.1 [1, 2, 3] [2, 3, 5] (by decide)⟩

/-- C4 counterexample: `calculate_metrics` of `validate.py` at a usable
pair count of 3 — below the claimed floors of 5 and 10 — emits a full
numeric metrics dict (including a computed NSE), not the insufficiency
sentinel. -/
theorem calculate_metrics_small_n_emits :
    (mObs [some 1, some 2, some 3] [some 2, some 3, some 5]).length = 3 ∧
      CalcResult.isMetrics (calculate_metrics [some 1, some 2, some 3]
        [some 2, some 3, some 5]) = true ∧
      CalcResult.nseField (calculate_metrics [some 1, some 2, some 3]
        [some 2, some 3, some 5]) ≠ none := by
  refine ⟨by decide, by decide, ?_⟩
  have hobs : mObs [some 1, some 2, some 3] [some 2, some 3, some 5] =
      [1, 2, 3] := by decide
  have hpred : mPred [some 1, some 2, some 3] [some 2, some 3, some 5] =
      [2, 3, 5] := by decide
  have hss : ssTotOf [(1 : ℚ), 2, 3] = 2 := by
    norm_num [ssTotOf, qmean, List.sum_cons, List.sum_nil]
  have hne : nseOf [(1 : ℚ), 2, 3] [2, 3, 5] ≠ none := by
    unfold nseOf
    rw [if_pos (by rw [hss]; norm_num)]
    exact Option.some_ne_none _
  show CalcResult.nseField (calculate_metrics [some 1, some 2, some 3]
    [some 2, some 3, some 5]) ≠ none
  unfold calculate_metrics
  rw [if_neg (by decide)]
  show (nseOf (mObs [some 1, some 2, some 3] [some 2, some 3, some 5])
    (mPred [some 1, some 2, some 3] [some 2, some 3, some 5])).map
      (pyRound 4) ≠ none
  rw [hobs, hpred]
  simp only [ne_eq, Option.map_eq_none']
  exact hne

/-- C9: in `calculate_metrics` the log-RMSE is computed from the positive
observed values and positive predicted values filtered independently: it is
missing exactly when either filtered sequence has at most one element or
the two filtered lengths differ; and on
`observed = [1,-1,2,-2]`, `predicted = [-1,1,-2,2]` — which has NO pair
with both entries positive — the equal filtered lengths still produce a
log-RMSE, confirming the differenced entries need not come from the same
pair. -/
theorem log_rmse_independent_filtering :
    (∀ observed predicted : List (Option ℚ),
        2 ≤ (mObs observed predicted).length →
        ∃ m, calculate_metrics observed predicted = CalcResult.metrics m ∧
          (m.log_rmse = none ↔
            (posCount (mObs observed predicted) ≤ 1 ∨
              posCount (mPred observed predicted) ≤ 1 ∨
              posCount (mObs observed predicted) ≠
                posCount (mPred observed predicted)))) ∧
      (CalcResult.logRmseField (calculate_metrics
            [some 1, some (-1), some 2, some (-2)]
            [some (-1), some 1, some (-2), some 2]) ≠ none ∧
        (validPairs [(1 : ℚ), -1, 2, -2] [(-1 : ℚ), 1, -2, 2]).length = 0) := by
  constructor
  · intro observed predicted h2
    refine ⟨linMetricsOf (mObs observed predicted) (mPred observed predicted),
      ?_, ?_⟩
    · unfold calculate_metrics
      rw [if_neg (by omega)]
    · show (logRmseOf (mObs observed predicted)
          (mPred observed predicted)).map (pyRound 4) = none ↔ _
      rw [Option.map_eq_none']
      exact logRmseOf_eq_none_iff _ _
  · exact ⟨by decide, by decide⟩

/-- C9 witness: the characterization applied to a concrete two-pair input. -/
theorem log_rmse_independent_filtering_witness :
    ∃ m, calculate_metrics [some (1 : ℚ), some 2] [some (3 : ℚ), some 4] =
        CalcResult.metrics m ∧
      (m.log_rmse = none ↔
        (posCount (mObs [some (1 : ℚ), some 2] [some (3 : ℚ), some 4]) ≤ 1 ∨
          posCount (mPred [some (1 : ℚ), some 2] [some (3 : ℚ), some 4]) ≤ 1 ∨
          posCount (mObs [some (1 : ℚ), some 2] [some (3 : ℚ), some 4]) ≠
            posCount (mPred [some (1 : ℚ), some 2] [some (3 : ℚ), some 4]))) :=
  log_rmse_independent_filtering.1 [some (1 : ℚ), some 2]
    [some (3 : ℚ), some 4] (by decide)

/-- C5 amended: in `calculate_metrics` (`validate.py`), once at least two
pairs survive the NaN mask a full metrics dict is returned, in which PBIAS
is missing exactly when `sum(obs) = 0`, NSE exactly when the NSE
denominator is 0 (all observed identical), r exactly when either sample
variance is 0, and KGE exactly when `std(obs) = 0` or `mean(obs) = 0` —
but NOT when r alone is undefined: an undefined r is coerced to 0 inside
the KGE formula instead of making KGE missing.  (The `compute_metrics`
engines of the other scripts guard none of their denominators at all.) -/
theorem calculate_metrics_guards (observed predicted : List (Option ℚ))
    (h2 : 2 ≤ (mObs observed predicted).length) :
    ∃ m, calculate_metrics observed predicted = CalcResult.metrics m ∧
      (m.pbias_pct = none ↔ (mObs observed predicted).sum = 0) ∧
      (m.nse = none ↔ ssTotOf (mObs observed predicted) = 0) ∧
      (m.r = none ↔
        varPop (mObs observed predicted) *
          varPop (mPred observed predicted) = 0) ∧
      (m.kge = none ↔
        (npStd (mObs observed predicted) = 0 ∨
          qmean (mObs observed predicted) = 0)) := by
  refine ⟨linMetricsOf (mObs observed predicted) (mPred observed predicted),
    ?_, ?_, ?_, ?_, ?_⟩
  · unfold calculate_metrics
    rw [if_neg (by omega)]
  · show (pbiasOf (mObs observed predicted)
        (mPred observed predicted)).map (pyRound 2) = none ↔
      (mObs observed predicted).sum = 0
    rw [Option.map_eq_none']
    unfold pbiasOf
    split
    · rename_i h
      exact iff_of_false (Option.some_ne_none _) h
    · rename_i h
      exact iff_of_true rfl (not_not.1 h)
  · show (nseOf (mObs observed predicted)
        (mPred observed predicted)).map (pyRound 4) = none ↔
      ssTotOf (mObs observed predicted) = 0
    rw [Option.map_eq_none']
    unfold nseOf
    split
    · rename_i h
      exact iff_of_false (Option.some_ne_none _) h
    · rename_i h
      exact iff_of_true rfl (not_not.1 h)
  · show (rOf (mObs observed predicted)
        (mPred observed predicted)).map (pyRound 4) = none ↔
      varPop (mObs observed predicted) * varPop (mPred observed predicted) = 0
    rw [Option.map_eq_none']
    unfold rOf
    split
    · rename_i h
      exact iff_of_true rfl h
    · rename_i h
      exact iff_of_false (Option.some_ne_none _) h
  · show (kgeOf (mObs observed predicted)
        (mPred observed predicted)).map (pyRound 4) = none ↔
      (npStd (mObs observed predicted) = 0 ∨
        qmean (mObs observed predicted) = 0)
    rw [Option.map_eq_none']
    unfold kgeOf
    split
    · rename_i h
      exact iff_of_true rfl h
    · rename_i h
      exact iff_of_false (Option.some_ne_none _) h

/-- C5 witness: the guard characterization at a concrete two-pair input. -/
theorem calculate_metrics_guards_witness :
    ∃ m, calculate_metrics [some (1 : ℚ), some 2] [some (1 : ℚ), some 2] =
        CalcResult.metrics m ∧
      (m.pbias_pct = none ↔
        (mObs [some (1 : ℚ), some 2] [some (1 : ℚ), some 2]).sum = 0) ∧
      (m.nse = none ↔
        ssTotOf (mObs [some (1 : ℚ), some 2] [some (1 : ℚ), some 2]) = 0) ∧
      (m.r = none ↔
        varPop (mObs [some (1 : ℚ), some 2] [some (1 : ℚ), some 2]) *
          varPop (mPred [some (1 : ℚ), some 2] [some (1 : ℚ), some 2]) = 0) ∧
      (m.kge = none ↔
        (npStd (mObs [some (1 : ℚ), some 2] [some (1 : ℚ), some 2]) = 0 ∨
          qmean (mObs [some (1 : ℚ), some 2] [some (1 : ℚ), some 2]) = 0)) :=
  calculate_metrics_guards [some (1 : ℚ), some 2] [some (1 : ℚ), some 2]
    (by decide)

/-- C5 counterexample: on `observed = [1,2,3,4,5]` against the constant
prediction `[2,2,2,2,2]`, r is undefined (reported `None`), yet KGE is
still emitted as a number — the undefined r was silently coerced to 0
inside the KGE formula, violating the claim that an undefined intermediate
never enters another formula and that KGE is missing when r is undefined. -/
theorem kge_emitted_with_undefined_r :
    CalcResult.rField (calculate_metrics
        [some (1 : ℚ), some 2, some 3, some 4, some 5]
        [some (2 : ℚ), some 2, some 2, some 2, some 2]) = none ∧
      CalcResult.kgeField (calculate_metrics
        [some (1 : ℚ), some 2, some 3, some 4, some 5]
        [some (2 : ℚ), some 2, some 2, some 2, some 2]) ≠ none := by
  have hobs : mObs [some (1 : ℚ), some 2, some 3, some 4, some 5]
      [some (2 : ℚ), some 2, some 2, some 2, some 2] = [1, 2, 3, 4, 5] := by
    decide
  have hpred : mPred [some (1 : ℚ), some 2, some 3, some 4, some 5]
      [some (2 : ℚ), some 2, some 2, some 2, some 2] = [2, 2, 2, 2, 2] := by
    decide
  have hssp : ssTotOf [(2 : ℚ), 2, 2, 2, 2] = 0 := by
    norm_num [ssTotOf, qmean, List.sum_cons, List.sum_nil]
  have hvarp : varPop [(2 : ℚ), 2, 2, 2, 2] = 0 := by
    norm_num [varPop, hssp]
  have hsso : ssTotOf [(1 : ℚ), 2, 3, 4, 5] = 10 := by
    norm_num [ssTotOf, qmean, List.sum_cons, List.sum_nil]
  have hvaro : varPop [(1 : ℚ), 2, 3, 4, 5] = 2 := by
    norm_num [varPop, hsso]
  constructor
  · show CalcResult.rField (calculate_metrics
        [some (1 : ℚ), some 2, some 3, some 4, some 5]
        [some (2 : ℚ), some 2, some 2, some 2, some 2]) = none
    unfold calculate_metrics
    rw [if_neg (by decide)]
    show (rOf (mObs [some (1 : ℚ), some 2, some 3, some 4, some 5]
        [some (2 : ℚ), some 2, some 2, some 2, some 2])
      (mPred [some (1 : ℚ), some 2, some 3, some 4, some 5]
        [some (2 : ℚ), some 2, some 2, some 2, some 2])).map (pyRound 4) = none
    rw [hobs, hpred]
    unfold rOf
    rw [if_pos (by rw [hvarp, mul_zero])]
    rfl
  · show CalcResult.kgeField (calculate_metrics
        [some (1 : ℚ), some 2, some 3, some 4, some 5]
        [some (2 : ℚ), some 2, some 2, some 2, some 2]) ≠ none
    unfold calculate_metrics
    rw [if_neg (by decide)]
    show (kgeOf (mObs [some (1 : ℚ), some 2, some 3, some 4, some 5]
        [some (2 : ℚ), some 2, some 2, some 2, some 2])
      (mPred [some (1 : ℚ), some 2, some 3, some 4, some 5]
        [some (2 : ℚ), some 2, some 2, some 2, some 2])).map (pyRound 4) ≠ none
    rw [hobs, hpred]
    have hstd : npStd [(1 : ℚ), 2, 3, 4, 5] ≠ 0 := by
      unfold npStd
      rw [hvaro]
      exact ratSqrt_ne_zero (by norm_num)
    have hmean : qmean [(1 : ℚ), 2, 3, 4, 5] = 3 := by
      norm_num [qmean, List.sum_cons, List.sum_nil]
    have hc : ¬ (npStd [(1 : ℚ), 2, 3, 4, 5] = 0 ∨
        qmean [(1 : ℚ), 2, 3, 4, 5] = 0) := by
      rintro (h | h)
      · exact hstd h
      · rw [hmean] at h
        norm_num at h
    unfold kgeOf
    rw [if_neg hc]
    simp
